import Mathlib

/-!
Verification of the tracked back-reference primitive in mykk/refcountable.

The repository holds two structurally near-identical C++ implementations of
the same three-part primitive:
  * src/RefCountable.hpp   — `RefCountable<T>` (owning container),
    `RefCountableBase<T>` (reference-holding container), `RefCounted<T>`
    (the observer handle); we call it implementation A below.
  * src/unnamed/part_000   — the same three class templates; we call it
    implementation B, embedded under the `PartB` namespace.

The observer count is a `std::atomic<size_t>` mutated with relaxed
`fetch_add(1)` / `fetch_sub(1)`; we embed it as a `Nat` kept below `2 ^ 64`
with wrap-around arithmetic made explicit.  Values of the wrapped type `T`
are embedded as an arbitrary type `V`; moving a C++ value out of a container
is modelled by an arbitrary function `mv : V → V` giving the moved-from
value.  Implementation B's owning-container copy-assignment executes
`value = rhs.value();` — it *invokes* the stored value — so its embedding
takes a function `call : V → V` standing for `operator()` of the wrapped
type.

A C++ subtlety is decisive for the handle type `RefCounted<T>` (whose text
is identical in both implementations).  All of its constructors and its
`operator=` are member *templates*, and a member template is never a copy
constructor or copy assignment operator, so the compiler still implicitly
declares both, defined memberwise over the two `std::reference_wrapper`
members — with no `fetch_add`/`fetch_sub`.  Since a non-template beats a
template specialization when conversion sequences tie, and since
`RefCounted<T>` cannot access `RefCounted<U>`'s private members for
`U ≠ T` (making every cross-type handle-from-handle path ill-formed):
  * copy-construction from a *const* same-type handle selects the implicit
    copy constructor — the target's counter is NOT incremented;
  * handle assignment `h1 = h2` (same type is the only combination that
    compiles) selects the implicit copy assignment — both references are
    rebound and NO counter is touched;
  * copy-construction from a non-const lvalue handle and from an rvalue
    handle still select the written templates (strictly better matches;
    the user-declared destructor suppresses any implicit move constructor),
    so those paths DO increment, and the user-declared `~RefCounted()`
    always runs its one `fetch_sub`.
The world semantics below embeds what the program executes
(`implicitBindFrom`, `implicitAssign` for the two implicit-member paths);
the written-but-never-selected templates are also embedded, clearly marked,
because the spec was written from their text and the two implementations
are compared text against text.
-/

/-- Modulus of `size_t` (64-bit platform): the observer counter is a
`std::atomic<size_t>` and its `fetch_add`/`fetch_sub` wrap at `2 ^ 64`. -/
def sizeTMod : Nat := 2 ^ 64

theorem sizeTMod_pos : 0 < sizeTMod := by norm_num [sizeTMod]

/-- `fetch_add(1, relaxed)` on the `size_t` observer counter. -/
def fetchAdd1 (n : Nat) : Nat := (n + 1) % sizeTMod

/-- `fetch_sub(1, relaxed)` on the `size_t` observer counter
(`n - 1` modulo `2 ^ 64`, for `n < 2 ^ 64`). -/
def fetchSub1 (n : Nat) : Nat := (n + (sizeTMod - 1)) % sizeTMod

theorem fetchAdd1_of_mod (a : Nat) : fetchAdd1 (a % sizeTMod) = (a + 1) % sizeTMod := by
  unfold fetchAdd1 sizeTMod
  omega

theorem fetchSub1_of_succ_mod (a : Nat) :
    fetchSub1 ((a + 1) % sizeTMod) = a % sizeTMod := by
  unfold fetchSub1 sizeTMod
  omega

theorem fetchAdd1_fetchSub1 (x : Nat) (h : x < sizeTMod) :
    fetchAdd1 (fetchSub1 x) = x := by
  unfold fetchAdd1 fetchSub1 sizeTMod at *
  omega

theorem fetchSub1_eq_sub_one (x : Nat) (h0 : 1 ≤ x) (h1 : x < sizeTMod) :
    fetchSub1 x = x - 1 := by
  unfold fetchSub1 sizeTMod at *
  omega

theorem fetchAdd1_eq_add_one (x : Nat) (h : x + 1 < sizeTMod) :
    fetchAdd1 x = x + 1 := by
  unfold fetchAdd1 sizeTMod at *
  omega

/-- Outcome of running a container's destructor: `ok` means silent success,
`abort` means the `std::terminate()` path (the process dies; the destructor
neither throws nor returns an error). -/
inductive DtorOutcome where
  | ok
  | abort
deriving DecidableEq, Repr

/-- State of one `RefCountable<T>` (owning container): the owned `value`
and the atomic observer `counter` (a `size_t`, kept below `2 ^ 64`). -/
structure RefCountable (V : Type) where
  value : V
  counter : Nat
deriving DecidableEq, Repr

/-- State of one `RefCountableBase<T>` (reference-holding container):
`value` stands for the externally owned `T` the base refers to, `counter`
is the base's own atomic observer count. -/
structure RefCountableBase (V : Type) where
  value : V
  counter : Nat
deriving DecidableEq, Repr

/-- A moved-from container: `std::move` took the value (`mv` gives the
moved-from contents); the observer counter member is not touched. -/
def movedFrom {V : Type} (mv : V → V) (c : RefCountable V) : RefCountable V :=
  ⟨mv c.value, c.counter⟩

namespace RefCountable

variable {V : Type}

/-- `RefCountable(Arg&&)` / `RefCountable(Arg1&&, Arg2&&, Args&&...)`
(src/RefCountable.hpp lines 43-52): the forwarded arguments build the owned
value `v`; the counter member is initialized to 0. -/
def init (v : V) : RefCountable V := ⟨v, 0⟩

/-- `RefCountable(const RefCountable&)` (src/RefCountable.hpp lines 58-60):
copies only the value; the new counter is 0. -/
def copyCtor (rhs : RefCountable V) : RefCountable V := ⟨rhs.value, 0⟩

/-- `RefCountable(RefCountable&&)` (src/RefCountable.hpp lines 54-56):
moves only the value out of `rhs`; the new counter is 0. -/
def moveCtor (rhs : RefCountable V) : RefCountable V := ⟨rhs.value, 0⟩

/-- `~RefCountable()` (src/RefCountable.hpp lines 62-70): a relaxed load of
the counter; nonzero means `assert(false)` + `std::terminate()`. -/
def dtor (c : RefCountable V) : DtorOutcome :=
  if c.counter ≠ 0 then .abort else .ok

/-- `operator=(const RefCountable&)` (src/RefCountable.hpp lines 75-79):
`value = rhs.value;` — the counter member is not touched. -/
def copyAssign (self rhs : RefCountable V) : RefCountable V :=
  ⟨rhs.value, self.counter⟩

/-- `operator=(RefCountable&&)` (src/RefCountable.hpp lines 81-85):
`value = std::move(rhs.value);` — the counter member is not touched. -/
def moveAssign (self rhs : RefCountable V) : RefCountable V :=
  ⟨rhs.value, self.counter⟩

/-- `operator=(const T&)` (src/RefCountable.hpp lines 87-91):
`value = rhs;` — the counter member is not touched. -/
def assignVal (self : RefCountable V) (v : V) : RefCountable V :=
  ⟨v, self.counter⟩

/-- `operator=(T&&)` (src/RefCountable.hpp lines 93-97):
`value = std::move(rhs);` — the counter member is not touched. -/
def assignValMove (self : RefCountable V) (v : V) : RefCountable V :=
  ⟨v, self.counter⟩

end RefCountable

namespace RefCountableBase

variable {V : Type}

/-- `RefCountableBase(T&)` (src/RefCountable.hpp line 28): binds the
reference to the externally owned value; counter initialized to 0. -/
def init (v : V) : RefCountableBase V := ⟨v, 0⟩

/-- `RefCountableBase(const RefCountableBase&)` (src/RefCountable.hpp
line 29): the new base refers to the same external value; counter 0. -/
def copyCtor (rhs : RefCountableBase V) : RefCountableBase V := ⟨rhs.value, 0⟩

/-- `RefCountableBase(RefCountableBase&&)` (src/RefCountable.hpp line 30):
`value{std::move(rhs.value)}` rebinds a `T&`, so the referenced object is
unchanged; counter 0. -/
def moveCtor (rhs : RefCountableBase V) : RefCountableBase V := ⟨rhs.value, 0⟩

/-- `virtual ~RefCountableBase()` (src/RefCountable.hpp lines 19-27):
same relaxed load and terminate-on-nonzero as the owning container. -/
def dtor (b : RefCountableBase V) : DtorOutcome :=
  if b.counter ≠ 0 then .abort else .ok

end RefCountableBase

/-! The observer handle `RefCounted<T>` holds a `reference_wrapper` to the
target's value member and one to the target's counter member.  Its local
(per-target-cell) semantics below maps the referenced container cell to the
cell after the handle operation; which cell a handle is bound to is modelled
in the world semantics further down. -/

namespace RefCounted

variable {V : Type}

/-- `RefCounted(RefCountable<U>&)` (src/RefCountable.hpp lines 108-112):
`counter.get().fetch_add(1, relaxed)` on the bound target. -/
def ctorFromMutable (ref : RefCountable V) : RefCountable V :=
  ⟨ref.value, fetchAdd1 ref.counter⟩

/-- `RefCounted(const RefCountable<U>&)` (src/RefCountable.hpp lines
114-118): same `fetch_add(1)` on the bound target. -/
def ctorFromConst (ref : RefCountable V) : RefCountable V :=
  ⟨ref.value, fetchAdd1 ref.counter⟩

/-- `RefCounted(RefCountableBase<U>&)` (src/RefCountable.hpp lines
120-124): `fetch_add(1)` on the bound base-variant target. -/
def ctorFromMutableBase (ref : RefCountableBase V) : RefCountableBase V :=
  ⟨ref.value, fetchAdd1 ref.counter⟩

/-- `RefCounted(const RefCountableBase<U>&)` (src/RefCountable.hpp lines
126-130): `fetch_add(1)` on the bound base-variant target. -/
def ctorFromConstBase (ref : RefCountableBase V) : RefCountableBase V :=
  ⟨ref.value, fetchAdd1 ref.counter⟩

/-- `RefCounted(RefCounted<U>&)` (src/RefCountable.hpp lines 132-136):
binds to the source handle's target cell and `fetch_add(1)`s it. -/
def ctorCopy (tgt : RefCountable V) : RefCountable V :=
  ⟨tgt.value, fetchAdd1 tgt.counter⟩

/-- `RefCounted(const RefCounted<U>&)` (src/RefCountable.hpp lines
138-142) as written: `fetch_add(1)` on the source handle's target cell.
This template is never selected: for `U = T` the implicitly-declared copy
constructor (a non-template with the same signature) wins overload
resolution, and for `U ≠ T` the template is ill-formed because
`RefCounted<T>` cannot access `RefCounted<U>`'s private members.  It is
embedded here only to compare the two implementations' texts; the executed
semantics of const-copy-construction is `implicitBindFrom` below. -/
def ctorCopyConst (tgt : RefCountable V) : RefCountable V :=
  ⟨tgt.value, fetchAdd1 tgt.counter⟩

/-- `RefCounted(RefCounted<U>&&)` (src/RefCountable.hpp lines 144-148):
move-construction also does `fetch_add(1)` on the target cell; the
moved-from handle is not modified at all. -/
def ctorMove (tgt : RefCountable V) : RefCountable V :=
  ⟨tgt.value, fetchAdd1 tgt.counter⟩

/-- `~RefCounted()` (src/RefCountable.hpp lines 166-169):
`counter.get().fetch_sub(1, relaxed)` on the bound target cell. -/
def dtorTarget (tgt : RefCountable V) : RefCountable V :=
  ⟨tgt.value, fetchSub1 tgt.counter⟩

/-- `~RefCounted()` applied to a handle bound to a base-variant cell. -/
def dtorTargetBase (tgt : RefCountableBase V) : RefCountableBase V :=
  ⟨tgt.value, fetchSub1 tgt.counter⟩

/-- The templated `operator=(const RefCounted<U>&)` (src/RefCountable.hpp
lines 150-164) as written, in the non-self case with two distinct target
cells: `fetch_sub(1)` on the old target, then `fetch_add(1)` on the new
target.  This operator is never selected — for `U = T` the
implicitly-declared copy assignment operator (a non-template) wins, and for
`U ≠ T` the template is ill-formed (private access, and `this == &rhs`
compares unrelated pointer types).  Embedded only to compare the two
implementations' texts; the executed semantics of handle assignment is
`implicitAssign` below. -/
def assignFromOther (oldTgt newTgt : RefCountable V) :
    RefCountable V × RefCountable V :=
  (⟨oldTgt.value, fetchSub1 oldTgt.counter⟩, ⟨newTgt.value, fetchAdd1 newTgt.counter⟩)

end RefCounted

/-! ## Implementation B: src/unnamed/part_000

The same three class templates.  The only textual difference with an effect
on values/counters/outcomes is the owning container's copy-assignment,
which reads `value = rhs.value();` — the right-hand stored value is invoked
as a callable and the result of the call is assigned.  `call : V → V`
stands for that `operator()` of the wrapped type. -/

namespace PartB

variable {V : Type}

/-- `RefCountable(Args&&...)` (src/unnamed/part_000 lines 44-47). -/
def init (v : V) : RefCountable V := ⟨v, 0⟩

/-- `RefCountable(const RefCountable&)` (src/unnamed/part_000 lines 59-61). -/
def copyCtor (rhs : RefCountable V) : RefCountable V := ⟨rhs.value, 0⟩

/-- `~RefCountable()` (src/unnamed/part_000 lines 49-57). -/
def dtor (c : RefCountable V) : DtorOutcome :=
  if c.counter ≠ 0 then .abort else .ok

/-- `operator=(const RefCountable&)` (src/unnamed/part_000 lines 66-70):
`value = rhs.value();` — the stored value of `rhs` is *invoked* and the
call's result is stored; the counter member is not touched. -/
def copyAssign (call : V → V) (self rhs : RefCountable V) : RefCountable V :=
  ⟨call rhs.value, self.counter⟩

/-- `operator=(RefCountable&&)` (src/unnamed/part_000 lines 72-76). -/
def moveAssign (self rhs : RefCountable V) : RefCountable V :=
  ⟨rhs.value, self.counter⟩

/-- `operator=(const T&)` (src/unnamed/part_000 lines 78-82). -/
def assignVal (self : RefCountable V) (v : V) : RefCountable V :=
  ⟨v, self.counter⟩

/-- `operator=(T&&)` (src/unnamed/part_000 lines 84-88). -/
def assignValMove (self : RefCountable V) (v : V) : RefCountable V :=
  ⟨v, self.counter⟩

/-- `RefCountableBase(T&)` (src/unnamed/part_000 line 29). -/
def baseInit (v : V) : RefCountableBase V := ⟨v, 0⟩

/-- `RefCountableBase(const RefCountableBase&)` (src/unnamed/part_000
line 30). -/
def baseCopyCtor (rhs : RefCountableBase V) : RefCountableBase V := ⟨rhs.value, 0⟩

/-- `RefCountableBase(RefCountableBase&&)` (src/unnamed/part_000 line 31). -/
def baseMoveCtor (rhs : RefCountableBase V) : RefCountableBase V := ⟨rhs.value, 0⟩

/-- `~RefCountableBase()` (src/unnamed/part_000 lines 15-23): public and
non-virtual there, but the body — relaxed load, terminate on nonzero — is
the same. -/
def baseDtor (b : RefCountableBase V) : DtorOutcome :=
  if b.counter ≠ 0 then .abort else .ok

/-- `RefCounted(RefCountable<U>&)` (src/unnamed/part_000 lines 99-103). -/
def ctorFromMutable (ref : RefCountable V) : RefCountable V :=
  ⟨ref.value, fetchAdd1 ref.counter⟩

/-- `RefCounted(const RefCountable<U>&)` (src/unnamed/part_000 lines
105-109). -/
def ctorFromConst (ref : RefCountable V) : RefCountable V :=
  ⟨ref.value, fetchAdd1 ref.counter⟩

/-- `RefCounted(RefCountableBase<U>&)` (src/unnamed/part_000 lines
111-115). -/
def ctorFromMutableBase (ref : RefCountableBase V) : RefCountableBase V :=
  ⟨ref.value, fetchAdd1 ref.counter⟩

/-- `RefCounted(const RefCountableBase<U>&)` (src/unnamed/part_000 lines
117-121). -/
def ctorFromConstBase (ref : RefCountableBase V) : RefCountableBase V :=
  ⟨ref.value, fetchAdd1 ref.counter⟩

/-- `RefCounted(RefCounted<U>&)` (src/unnamed/part_000 lines 123-127). -/
def ctorCopy (tgt : RefCountable V) : RefCountable V :=
  ⟨tgt.value, fetchAdd1 tgt.counter⟩

/-- `RefCounted(const RefCounted<U>&)` (src/unnamed/part_000 lines
129-133) as written.  Like its textually identical counterpart in
implementation A, this template is never selected (the implicitly-declared
copy constructor wins for `U = T`; for `U ≠ T` it is ill-formed). -/
def ctorCopyConst (tgt : RefCountable V) : RefCountable V :=
  ⟨tgt.value, fetchAdd1 tgt.counter⟩

/-- `RefCounted(RefCounted<U>&&)` (src/unnamed/part_000 lines 135-139). -/
def ctorMove (tgt : RefCountable V) : RefCountable V :=
  ⟨tgt.value, fetchAdd1 tgt.counter⟩

/-- `~RefCounted()` (src/unnamed/part_000 lines 157-160). -/
def dtorTarget (tgt : RefCountable V) : RefCountable V :=
  ⟨tgt.value, fetchSub1 tgt.counter⟩

/-- The templated `operator=(const RefCounted<U>&)` (src/unnamed/part_000
lines 141-155) as written, in the non-self case with two distinct target
cells.  Like its textually identical counterpart in implementation A, this
operator is never selected (the implicitly-declared copy assignment wins
for `U = T`; for `U ≠ T` it is ill-formed). -/
def assignFromOther (oldTgt newTgt : RefCountable V) :
    RefCountable V × RefCountable V :=
  (⟨oldTgt.value, fetchSub1 oldTgt.counter⟩, ⟨newTgt.value, fetchAdd1 newTgt.counter⟩)

end PartB

/-! ## World semantics

A world holds the live containers (indexed by an id; the two container
variants share the cell shape `RefCountable V`, since their value/counter
dynamics are identical) and the live handles.  A handle object is the pair
of its two `reference_wrapper` members: the id of the container whose
`value` member it references and the id of the container whose `counter`
member it references (the source always sets and rebinds them together). -/

/-- The state of one live `RefCounted<T>` handle: which container's value
member and which container's counter member its two `reference_wrapper`s
point at. -/
structure HandleRef where
  valueTgt : Nat
  countTgt : Nat
deriving DecidableEq, Repr

/-- A snapshot of all live containers and handles. -/
structure World (V : Type) where
  conts : Nat → Option (RefCountable V)
  hnds : List (Nat × HandleRef)

/-- The initial world: no containers, no handles. -/
def World.empty (V : Type) : World V := ⟨fun _ => none, []⟩

/-- Point-update of the container map. -/
def setCont {V : Type} (f : Nat → Option (RefCountable V)) (cid : Nat)
    (c : Option (RefCountable V)) : Nat → Option (RefCountable V) :=
  fun k => if k = cid then c else f k

/-- Look a live handle up by id. -/
def getHnd : List (Nat × HandleRef) → Nat → Option HandleRef
  | [], _ => none
  | p :: ps, hid => if p.1 = hid then some p.2 else getHnd ps hid

/-- Drop the handle with the given id (its destructor ran). -/
def removeHnd : List (Nat × HandleRef) → Nat → List (Nat × HandleRef)
  | [], _ => []
  | p :: ps, hid => if p.1 = hid then removeHnd ps hid else p :: removeHnd ps hid

/-- Replace the state of the handle with the given id. -/
def setHnd : List (Nat × HandleRef) → Nat → HandleRef → List (Nat × HandleRef)
  | [], _, _ => []
  | p :: ps, hid, h =>
    if p.1 = hid then (hid, h) :: setHnd ps hid h else p :: setHnd ps hid h

/-- Number of live handles whose counter reference points at container
`cid`. -/
def boundCount : List (Nat × HandleRef) → Nat → Nat
  | [], _ => 0
  | p :: ps, cid => (if p.2.countTgt = cid then 1 else 0) + boundCount ps cid

/-- Construct a fresh handle `hid` bound to the live container `cid`
(any of the four container-taking `RefCounted` constructors): record the
two references and `fetch_add(1)` the target's counter. -/
def bindNew {V : Type} (w : World V) (hid cid : Nat) : Option (World V) :=
  match getHnd w.hnds hid, w.conts cid with
  | none, some c =>
      some ⟨setCont w.conts cid (some ⟨c.value, fetchAdd1 c.counter⟩),
            (hid, ⟨cid, cid⟩) :: w.hnds⟩
  | _, _ => none

/-- Construct a fresh handle `hid` from the live handle `src` through a
*written* handle-from-handle constructor: `RefCounted(RefCounted<U>&)`
(non-const lvalue source) or `RefCounted(RefCounted<U>&&)` (rvalue source),
which overload resolution does select for same-type sources (each is a
strictly better match than the implicitly-declared copy constructor, and no
implicit move constructor exists because the destructor is user-declared):
copy `src`'s two references and `fetch_add(1)` the counter they designate.
`src` itself is not modified. -/
def bindFrom {V : Type} (w : World V) (hid src : Nat) : Option (World V) :=
  match getHnd w.hnds hid with
  | some _ => none
  | none =>
    match getHnd w.hnds src with
    | none => none
    | some h =>
      match w.conts h.countTgt with
      | none => none
      | some c =>
          some ⟨setCont w.conts h.countTgt (some ⟨c.value, fetchAdd1 c.counter⟩),
                (hid, ⟨h.valueTgt, h.countTgt⟩) :: w.hnds⟩

/-- `~RefCounted()` of handle `hid`: `fetch_sub(1)` the referenced counter
and drop the handle. -/
def unbind {V : Type} (w : World V) (hid : Nat) : Option (World V) :=
  match getHnd w.hnds hid with
  | none => none
  | some h =>
    match w.conts h.countTgt with
    | none => none
    | some c =>
        some ⟨setCont w.conts h.countTgt (some ⟨c.value, fetchSub1 c.counter⟩),
              removeHnd w.hnds hid⟩

/-- Copy-construction of handle `hid` from a `const` same-type handle
`src` as the program executes it.  The templated
`RefCounted(const RefCounted<U>&)` (src/RefCountable.hpp lines 138-142) is
never selected: for `U = T` the implicitly-declared copy constructor — a
non-template with the same signature — wins overload resolution, and for
`U ≠ T` the template is ill-formed (`RefCounted<T>` cannot access
`RefCounted<U>`'s private members).  The implicit constructor copies the
two `reference_wrapper` members memberwise and performs no `fetch_add`:
the new handle is live and bound, but the target's counter is unchanged. -/
def implicitBindFrom {V : Type} (w : World V) (hid src : Nat) : Option (World V) :=
  match getHnd w.hnds hid, getHnd w.hnds src with
  | none, some h => some { w with hnds := (hid, ⟨h.valueTgt, h.countTgt⟩) :: w.hnds }
  | _, _ => none

/-- Handle assignment `h1 = h2` as the program executes it.  Same-type
assignment is the only combination that compiles, and it selects the
implicitly-declared copy assignment operator, not the templated
`operator=(const RefCounted<U>&)` (src/RefCountable.hpp lines 150-164):
a member template is never a copy assignment operator, the non-template
wins the tied overload resolution for `U = T`, and for `U ≠ T` the
template is ill-formed (private access; `this == &rhs` compares unrelated
pointer types).  The implicit operator assigns the two `reference_wrapper`
members memberwise — rebinding the handle to the right-hand handle's
targets — and performs no `fetch_sub`/`fetch_add` on any counter. -/
def implicitAssign {V : Type} (w : World V) (hid rhs : Nat) : Option (World V) :=
  match getHnd w.hnds hid, getHnd w.hnds rhs with
  | some _, some hr => some { w with hnds := setHnd w.hnds hid ⟨hr.valueTgt, hr.countTgt⟩ }
  | _, _ => none

/-- One API operation of the primitive; ids chosen by the caller name the
container/handle objects involved. -/
inductive Op (V : Type) where
  | newCont (cid : Nat) (v : V)
  | copyCont (cid src : Nat)
  | moveCont (cid src : Nat)
  | copyAssignCont (cid src : Nat)
  | moveAssignCont (cid src : Nat)
  | valAssignCont (cid : Nat) (v : V)
  | dtorCont (cid : Nat)
  | hBindMut (hid cid : Nat)
  | hBindConst (hid cid : Nat)
  | hBindMutBase (hid cid : Nat)
  | hBindConstBase (hid cid : Nat)
  | hCopy (hid src : Nat)
  | hCopyConst (hid src : Nat)
  | hMove (hid src : Nat)
  | hAssign (hid rhs : Nat)
  | hDtor (hid : Nat)

/-- Small-step semantics of one operation, embedding the member function
C++ overload resolution actually selects: for `hCopyConst` and `hAssign`
these are the implicitly-declared copy constructor and copy assignment of
`RefCounted` (no counter updates); every other operation runs the written
member.  `none` means the operation is not available in this world — the
id is dead or already taken, a lifetime precondition is violated, or, for
`dtorCont`, the destructor took the `std::terminate()` path. -/
def step {V : Type} (mv : V → V) : Op V → World V → Option (World V)
  | .newCont cid v, w =>
      match w.conts cid with
      | some _ => none
      | none => some { w with conts := setCont w.conts cid (some (RefCountable.init v)) }
  | .copyCont cid src, w =>
      match w.conts cid, w.conts src with
      | none, some c =>
          some { w with conts := setCont w.conts cid (some (RefCountable.copyCtor c)) }
      | _, _ => none
  | .moveCont cid src, w =>
      match w.conts cid, w.conts src with
      | none, some c =>
          some { w with conts := setCont (setCont w.conts src (some (movedFrom mv c)))
                                   cid (some (RefCountable.moveCtor c)) }
      | _, _ => none
  | .copyAssignCont cid src, w =>
      match w.conts cid, w.conts src with
      | some c, some s =>
          some { w with conts := setCont w.conts cid (some (RefCountable.copyAssign c s)) }
      | _, _ => none
  | .moveAssignCont cid src, w =>
      if cid = src then none
      else
        match w.conts cid, w.conts src with
        | some c, some s =>
            some { w with conts := setCont (setCont w.conts src (some (movedFrom mv s)))
                                     cid (some (RefCountable.moveAssign c s)) }
        | _, _ => none
  | .valAssignCont cid v, w =>
      match w.conts cid with
      | some c => some { w with conts := setCont w.conts cid (some (RefCountable.assignVal c v)) }
      | none => none
  | .dtorCont cid, w =>
      match w.conts cid with
      | some c =>
          if c.counter = 0 then some { w with conts := setCont w.conts cid none } else none
      | none => none
  | .hBindMut hid cid, w => bindNew w hid cid
  | .hBindConst hid cid, w => bindNew w hid cid
  | .hBindMutBase hid cid, w => bindNew w hid cid
  | .hBindConstBase hid cid, w => bindNew w hid cid
  | .hCopy hid src, w => bindFrom w hid src
  | .hCopyConst hid src, w => implicitBindFrom w hid src
  | .hMove hid src, w => bindFrom w hid src
  | .hAssign hid rhs, w => implicitAssign w hid rhs
  | .hDtor hid, w => unbind w hid

/-- Run a sequence of operations from a world. -/
def run {V : Type} (mv : V → V) : List (Op V) → World V → Option (World V)
  | [], w => some w
  | op :: ops, w =>
    match step mv op w with
    | some w2 => run mv ops w2
    | none => none

/-! ## The counting invariant -/

/-- Handle ids are pairwise distinct. -/
def keysOk (l : List (Nat × HandleRef)) : Prop := (l.map Prod.fst).Nodup

/-- Well-formedness of a world: handle ids are distinct, each handle's two
references designate the same container, and every live container's counter
equals (modulo `2 ^ 64`) the number of live handles bound to it. -/
def WF {V : Type} (w : World V) : Prop :=
  keysOk w.hnds ∧
  (∀ p ∈ w.hnds, p.2.valueTgt = p.2.countTgt) ∧
  (∀ cid c, w.conts cid = some c → c.counter = boundCount w.hnds cid % sizeTMod) ∧
  (∀ cid, w.conts cid = none → boundCount w.hnds cid % sizeTMod = 0)

theorem wf_empty (V : Type) : WF (World.empty V) := by
  refine ⟨List.nodup_nil, ?_, ?_, ?_⟩
  · intro p hp; cases hp
  · intro cid c hc; cases hc
  · intro cid hc; exact Nat.zero_mod _

theorem setCont_self {V : Type} (f : Nat → Option (RefCountable V)) (cid : Nat)
    (c : Option (RefCountable V)) : setCont f cid c cid = c := by
  simp [setCont]

theorem setCont_ne {V : Type} (f : Nat → Option (RefCountable V)) (cid : Nat)
    (c : Option (RefCountable V)) (k : Nat) (h : k ≠ cid) : setCont f cid c k = f k := by
  simp [setCont, h]

theorem getHnd_eq_none_iff (l : List (Nat × HandleRef)) (hid : Nat) :
    getHnd l hid = none ↔ hid ∉ l.map Prod.fst := by
  induction l with
  | nil => simp [getHnd]
  | cons p ps ih =>
    by_cases hp : p.1 = hid
    · simp [getHnd, hp]
    · simp [getHnd, hp, ih, Ne.symm hp]


theorem boundCount_cons (p : Nat × HandleRef) (ps : List (Nat × HandleRef)) (cid : Nat) :
    boundCount (p :: ps) cid
      = (if p.2.countTgt = cid then 1 else 0) + boundCount ps cid := rfl

theorem getHnd_cons (p : Nat × HandleRef) (ps : List (Nat × HandleRef)) (hid : Nat) :
    getHnd (p :: ps) hid = if p.1 = hid then some p.2 else getHnd ps hid := rfl

theorem removeHnd_cons (p : Nat × HandleRef) (ps : List (Nat × HandleRef)) (hid : Nat) :
    removeHnd (p :: ps) hid
      = if p.1 = hid then removeHnd ps hid else p :: removeHnd ps hid := rfl

theorem setHnd_cons (p : Nat × HandleRef) (ps : List (Nat × HandleRef)) (hid : Nat)
    (nh : HandleRef) :
    setHnd (p :: ps) hid nh
      = if p.1 = hid then (hid, nh) :: setHnd ps hid nh else p :: setHnd ps hid nh := rfl

theorem mem_of_getHnd (l : List (Nat × HandleRef)) (hid : Nat) (h : HandleRef)
    (hg : getHnd l hid = some h) : (hid, h) ∈ l := by
  induction l with
  | nil => cases hg
  | cons p ps ih =>
    rw [getHnd_cons] at hg
    by_cases hp : p.1 = hid
    · rw [if_pos hp] at hg
      cases hg
      subst hp
      simp
    · rw [if_neg hp] at hg
      exact List.mem_cons_of_mem _ (ih hg)

theorem removeHnd_of_not_mem (l : List (Nat × HandleRef)) (hid : Nat)
    (h : hid ∉ l.map Prod.fst) : removeHnd l hid = l := by
  induction l with
  | nil => rfl
  | cons p ps ih =>
    simp only [List.map_cons, List.mem_cons] at h
    push_neg at h
    rw [removeHnd_cons, if_neg (fun hc : p.1 = hid => h.1 hc.symm), ih h.2]

theorem setHnd_of_not_mem (l : List (Nat × HandleRef)) (hid : Nat) (nh : HandleRef)
    (h : hid ∉ l.map Prod.fst) : setHnd l hid nh = l := by
  induction l with
  | nil => rfl
  | cons p ps ih =>
    simp only [List.map_cons, List.mem_cons] at h
    push_neg at h
    rw [setHnd_cons, if_neg (fun hc : p.1 = hid => h.1 hc.symm), ih h.2]

theorem removeHnd_sublist (l : List (Nat × HandleRef)) (hid : Nat) :
    (removeHnd l hid).Sublist l := by
  induction l with
  | nil => exact List.Sublist.refl _
  | cons p ps ih =>
    rw [removeHnd_cons]
    by_cases hp : p.1 = hid
    · rw [if_pos hp]
      exact ih.cons p
    · rw [if_neg hp]
      exact ih.cons₂ p

theorem keysOk_removeHnd (l : List (Nat × HandleRef)) (hid : Nat) (h : keysOk l) :
    keysOk (removeHnd l hid) :=
  List.Nodup.sublist (List.Sublist.map Prod.fst (removeHnd_sublist l hid)) h

theorem map_fst_setHnd (l : List (Nat × HandleRef)) (hid : Nat) (nh : HandleRef) :
    (setHnd l hid nh).map Prod.fst = l.map Prod.fst := by
  induction l with
  | nil => rfl
  | cons p ps ih =>
    rw [setHnd_cons]
    by_cases hp : p.1 = hid
    · rw [if_pos hp]
      simp [ih, hp]
    · rw [if_neg hp]
      simp [ih]

theorem keysOk_setHnd (l : List (Nat × HandleRef)) (hid : Nat) (nh : HandleRef)
    (h : keysOk l) : keysOk (setHnd l hid nh) := by
  unfold keysOk
  rw [map_fst_setHnd]
  exact h

theorem keysOk_cons (l : List (Nat × HandleRef)) (hid : Nat) (nh : HandleRef)
    (hfresh : hid ∉ l.map Prod.fst) (h : keysOk l) : keysOk ((hid, nh) :: l) := by
  unfold keysOk
  simp only [List.map_cons]
  exact List.nodup_cons.mpr ⟨hfresh, h⟩

theorem mem_setHnd (l : List (Nat × HandleRef)) (hid : Nat) (nh : HandleRef)
    (p : Nat × HandleRef) (hp : p ∈ setHnd l hid nh) : p = (hid, nh) ∨ p ∈ l := by
  induction l with
  | nil => cases hp
  | cons q qs ih =>
    rw [setHnd_cons] at hp

    by_cases hq : q.1 = hid
    · rw [if_pos hq] at hp
      rcases List.mem_cons.mp hp with h1 | h1
      · exact Or.inl h1
      · rcases ih h1 with h2 | h2
        · exact Or.inl h2
        · exact Or.inr (List.mem_cons_of_mem _ h2)
    · rw [if_neg hq] at hp
      rcases List.mem_cons.mp hp with h1 | h1
      · refine Or.inr ?_
        rw [h1]
        exact List.mem_cons_self q qs
      · rcases ih h1 with h2 | h2
        · exact Or.inl h2
        · exact Or.inr (List.mem_cons_of_mem _ h2)

theorem boundCount_removeHnd (l : List (Nat × HandleRef)) (hid : Nat) (h : HandleRef)
    (cid : Nat) (hk : keysOk l) (hg : getHnd l hid = some h) :
    boundCount l cid
      = (if h.countTgt = cid then 1 else 0) + boundCount (removeHnd l hid) cid := by
  induction l with
  | nil => cases hg
  | cons p ps ih =>
    have hk2 := List.nodup_cons.mp hk
    rw [getHnd_cons] at hg
    by_cases hp : p.1 = hid
    · rw [if_pos hp] at hg
      cases hg
      rw [removeHnd_cons, if_pos hp, removeHnd_of_not_mem ps hid (hp ▸ hk2.1),
        boundCount_cons]
    · rw [if_neg hp] at hg
      rw [removeHnd_cons, if_neg hp, boundCount_cons, boundCount_cons,
        ih hk2.2 hg]
      omega

theorem boundCount_setHnd (l : List (Nat × HandleRef)) (hid : Nat) (h nh : HandleRef)
    (cid : Nat) (hk : keysOk l) (hg : getHnd l hid = some h) :
    boundCount (setHnd l hid nh) cid + (if h.countTgt = cid then 1 else 0)
      = boundCount l cid + (if nh.countTgt = cid then 1 else 0) := by
  induction l with
  | nil => cases hg
  | cons p ps ih =>
    have hk2 := List.nodup_cons.mp hk
    rw [getHnd_cons] at hg
    by_cases hp : p.1 = hid
    · rw [if_pos hp] at hg
      cases hg
      rw [setHnd_cons, if_pos hp, setHnd_of_not_mem ps hid nh (hp ▸ hk2.1),
        boundCount_cons, boundCount_cons]
      dsimp only
      omega
    · rw [if_neg hp] at hg
      rw [setHnd_cons, if_neg hp, boundCount_cons, boundCount_cons]
      have := ih hk2.2 hg
      omega

theorem getHnd_setHnd_self (l : List (Nat × HandleRef)) (hid : Nat) (h nh : HandleRef)
    (hg : getHnd l hid = some h) : getHnd (setHnd l hid nh) hid = some nh := by
  induction l with
  | nil => cases hg
  | cons p ps ih =>
    rw [getHnd_cons] at hg
    rw [setHnd_cons]
    by_cases hp : p.1 = hid
    · rw [if_pos hp, getHnd_cons, if_pos rfl]
    · rw [if_neg hp] at hg
      rw [if_neg hp, getHnd_cons, if_neg hp]
      exact ih hg

theorem getHnd_setHnd_ne (l : List (Nat × HandleRef)) (hid k : Nat) (nh : HandleRef)
    (hne : k ≠ hid) : getHnd (setHnd l hid nh) k = getHnd l k := by
  induction l with
  | nil => rfl
  | cons p ps ih =>
    rw [setHnd_cons]
    by_cases hp : p.1 = hid
    · subst hp
      rw [if_pos rfl, getHnd_cons, getHnd_cons,
        if_neg (fun hc : (p.1, nh).1 = k => hne hc.symm),
        if_neg (fun hc : p.1 = k => hne hc.symm)]
      exact ih
    · rw [if_neg hp, getHnd_cons, getHnd_cons]
      by_cases hk : p.1 = k
      · rw [if_pos hk, if_pos hk]
      · rw [if_neg hk, if_neg hk]
        exact ih

/-! ## Preservation of the invariant -/

theorem wf_bindNew {V : Type} (w : World V) (hid cid : Nat) (w2 : World V)
    (hwf : WF w) (hs : bindNew w hid cid = some w2) : WF w2 := by
  unfold bindNew at hs
  split at hs
  case _ c hg hc =>
    cases hs
    obtain ⟨hk, hvc, hcnt, hdead⟩ := hwf
    refine ⟨?_, ?_, ?_, ?_⟩
    · exact keysOk_cons _ _ _ ((getHnd_eq_none_iff _ _).mp hg) hk
    · intro p hp
      rcases List.mem_cons.mp hp with h1 | h1
      · rw [h1]
      · exact hvc p h1
    · intro cid2 c2 hc2
      dsimp only at hc2
      rw [boundCount_cons]
      dsimp only
      by_cases he : cid2 = cid
      · subst he
        rw [setCont_self] at hc2
        cases hc2
        rw [if_pos rfl, hcnt cid2 c hc]
        dsimp only
        rw [fetchAdd1_of_mod, Nat.add_comm]
      · rw [setCont_ne _ _ _ _ he] at hc2
        rw [if_neg (fun hx : cid = cid2 => he hx.symm), Nat.zero_add]
        rw [hcnt cid2 c2 hc2]
    · intro cid2 hc2
      dsimp only at hc2
      rw [boundCount_cons]
      dsimp only
      by_cases he : cid2 = cid
      · subst he
        rw [setCont_self] at hc2
        cases hc2
      · rw [setCont_ne _ _ _ _ he] at hc2
        rw [if_neg (fun hx : cid = cid2 => he hx.symm), Nat.zero_add]
        exact hdead cid2 hc2
  case _ hno =>
    cases hs

theorem wf_bindFrom {V : Type} (w : World V) (hid src : Nat) (w2 : World V)
    (hwf : WF w) (hs : bindFrom w hid src = some w2) : WF w2 := by
  unfold bindFrom at hs
  split at hs
  next => cases hs
  next hg =>
    split at hs
    next => cases hs
    next h hsrc =>
      split at hs
      next => cases hs
      next c hc =>
        cases hs
        obtain ⟨hk, hvc, hcnt, hdead⟩ := hwf
        refine ⟨?_, ?_, ?_, ?_⟩
        · exact keysOk_cons _ _ _ ((getHnd_eq_none_iff _ _).mp hg) hk
        · intro p hp
          rcases List.mem_cons.mp hp with h1 | h1
          · rw [h1]
            exact hvc (src, h) (mem_of_getHnd _ _ _ hsrc)
          · exact hvc p h1
        · intro cid2 c2 hc2
          dsimp only at hc2
          rw [boundCount_cons]
          dsimp only
          by_cases he : cid2 = h.countTgt
          · subst he
            rw [setCont_self] at hc2
            cases hc2
            dsimp only
            rw [if_pos rfl, hcnt _ c hc, fetchAdd1_of_mod, Nat.add_comm]
          · rw [setCont_ne _ _ _ _ he] at hc2
            rw [if_neg (fun hx : h.countTgt = cid2 => he hx.symm), Nat.zero_add]
            exact hcnt cid2 c2 hc2
        · intro cid2 hc2
          dsimp only at hc2
          rw [boundCount_cons]
          dsimp only
          by_cases he : cid2 = h.countTgt
          · subst he
            rw [setCont_self] at hc2
            cases hc2
          · rw [setCont_ne _ _ _ _ he] at hc2
            rw [if_neg (fun hx : h.countTgt = cid2 => he hx.symm), Nat.zero_add]
            exact hdead cid2 hc2

theorem wf_unbind {V : Type} (w : World V) (hid : Nat) (w2 : World V)
    (hwf : WF w) (hs : unbind w hid = some w2) : WF w2 := by
  unfold unbind at hs
  split at hs
  next => cases hs
  next h hg =>
    split at hs
    next => cases hs
    next c hc =>
      cases hs
      obtain ⟨hk, hvc, hcnt, hdead⟩ := hwf
      refine ⟨keysOk_removeHnd _ _ hk, ?_, ?_, ?_⟩
      · intro p hp
        exact hvc p ((removeHnd_sublist w.hnds hid).subset hp)
      · intro cid2 c2 hc2
        dsimp only at hc2 ⊢
        have hbc := boundCount_removeHnd w.hnds hid h cid2 hk hg
        by_cases he : cid2 = h.countTgt
        · subst he
          rw [setCont_self] at hc2
          cases hc2
          rw [if_pos rfl] at hbc
          dsimp only
          rw [hcnt _ c hc, hbc, Nat.add_comm 1 _, fetchSub1_of_succ_mod]
        · rw [setCont_ne _ _ _ _ he] at hc2
          rw [if_neg (fun hx : h.countTgt = cid2 => he hx.symm), Nat.zero_add] at hbc
          rw [hcnt cid2 c2 hc2, hbc]
      · intro cid2 hc2
        dsimp only at hc2 ⊢
        have hbc := boundCount_removeHnd w.hnds hid h cid2 hk hg
        by_cases he : cid2 = h.countTgt
        · subst he
          rw [setCont_self] at hc2
          cases hc2
        · rw [setCont_ne _ _ _ _ he] at hc2
          rw [if_neg (fun hx : h.countTgt = cid2 => he hx.symm), Nat.zero_add] at hbc
          rw [← hbc]
          exact hdead cid2 hc2

theorem wf_updCont {V : Type} (w : World V) (cid : Nat) (cOld cNew : RefCountable V)
    (hwf : WF w) (hold : w.conts cid = some cOld) (hctr : cNew.counter = cOld.counter) :
    WF { w with conts := setCont w.conts cid (some cNew) } := by
  obtain ⟨hk, hvc, hcnt, hdead⟩ := hwf
  refine ⟨hk, hvc, ?_, ?_⟩
  · intro cid2 c2 hc2
    dsimp only at hc2 ⊢
    by_cases he : cid2 = cid
    · subst he
      rw [setCont_self] at hc2
      cases hc2
      rw [hctr]
      exact hcnt _ _ hold
    · rw [setCont_ne _ _ _ _ he] at hc2
      exact hcnt _ _ hc2
  · intro cid2 hc2
    dsimp only at hc2 ⊢
    by_cases he : cid2 = cid
    · subst he
      rw [setCont_self] at hc2
      cases hc2
    · rw [setCont_ne _ _ _ _ he] at hc2
      exact hdead _ hc2

theorem wf_freshCont {V : Type} (w : World V) (cid : Nat) (c : RefCountable V)
    (hwf : WF w) (hnone : w.conts cid = none) (hctr : c.counter = 0) :
    WF { w with conts := setCont w.conts cid (some c) } := by
  obtain ⟨hk, hvc, hcnt, hdead⟩ := hwf
  refine ⟨hk, hvc, ?_, ?_⟩
  · intro cid2 c2 hc2
    dsimp only at hc2 ⊢
    by_cases he : cid2 = cid
    · subst he
      rw [setCont_self] at hc2
      cases hc2
      rw [hctr]
      exact (hdead _ hnone).symm
    · rw [setCont_ne _ _ _ _ he] at hc2
      exact hcnt _ _ hc2
  · intro cid2 hc2
    dsimp only at hc2 ⊢
    by_cases he : cid2 = cid
    · subst he
      rw [setCont_self] at hc2
      cases hc2
    · rw [setCont_ne _ _ _ _ he] at hc2
      exact hdead _ hc2

theorem wf_delCont {V : Type} (w : World V) (cid : Nat) (c : RefCountable V)
    (hwf : WF w) (hsome : w.conts cid = some c) (hctr : c.counter = 0) :
    WF { w with conts := setCont w.conts cid none } := by
  obtain ⟨hk, hvc, hcnt, hdead⟩ := hwf
  refine ⟨hk, hvc, ?_, ?_⟩
  · intro cid2 c2 hc2
    dsimp only at hc2 ⊢
    by_cases he : cid2 = cid
    · subst he
      rw [setCont_self] at hc2
      cases hc2
    · rw [setCont_ne _ _ _ _ he] at hc2
      exact hcnt _ _ hc2
  · intro cid2 hc2
    dsimp only at hc2 ⊢
    by_cases he : cid2 = cid
    · subst he
      rw [← hcnt _ _ hsome, hctr]
    · rw [setCont_ne _ _ _ _ he] at hc2
      exact hdead _ hc2

/-- Operations whose executed code performs the counter update that
matches the binding change: every operation except const-handle-copy
(`hCopyConst`) and handle assignment (`hAssign`), which run the
implicitly-declared members of `RefCounted` and touch no counter. -/
def countSafe {V : Type} : Op V -> Prop
  | .hCopyConst _ _ => False
  | .hAssign _ _ => False
  | _ => True

/-- One step of any count-safe operation preserves the invariant. -/
theorem wf_step {V : Type} (mv : V -> V) (op : Op V) (w w2 : World V)
    (hwf : WF w) (hsafe : countSafe op) (hs : step mv op w = some w2) : WF w2 := by
  cases op with
  | newCont cid v =>
    simp only [step] at hs
    split at hs
    next => cases hs
    next hnone =>
      cases hs
      exact wf_freshCont w cid _ hwf hnone rfl
  | copyCont cid src =>
    simp only [step] at hs
    split at hs
    next c hnone hsome =>
      cases hs
      exact wf_freshCont w cid _ hwf hnone rfl
    next => cases hs
  | moveCont cid src =>
    simp only [step] at hs
    split at hs
    next c hnone hsome =>
      cases hs
      have hcs : cid ≠ src := by
        intro he
        rw [he, hsome] at hnone
        cases hnone
      have h1 : WF { w with conts := setCont w.conts src (some (movedFrom mv c)) } :=
        wf_updCont w src c (movedFrom mv c) hwf hsome rfl
      have h2 : setCont w.conts src (some (movedFrom mv c)) cid = none := by
        rw [setCont_ne _ _ _ _ hcs]
        exact hnone
      exact wf_freshCont _ cid _ h1 h2 rfl
    next => cases hs
  | copyAssignCont cid src =>
    simp only [step] at hs
    split at hs
    next c s hc hsrc =>
      cases hs
      exact wf_updCont w cid c _ hwf hc rfl
    next => cases hs
  | moveAssignCont cid src =>
    simp only [step] at hs
    split at hs
    next => cases hs
    next hne =>
      split at hs
      next c s hc hsrc =>
        cases hs
        have h1 : WF { w with conts := setCont w.conts src (some (movedFrom mv s)) } :=
          wf_updCont w src s _ hwf hsrc rfl
        have h2 : setCont w.conts src (some (movedFrom mv s)) cid = some c := by
          rw [setCont_ne _ _ _ _ hne]
          exact hc
        exact wf_updCont _ cid c _ h1 h2 rfl
      next => cases hs
  | valAssignCont cid v =>
    simp only [step] at hs
    split at hs
    next c hc =>
      cases hs
      exact wf_updCont w cid c _ hwf hc rfl
    next => cases hs
  | dtorCont cid =>
    simp only [step] at hs
    split at hs
    next c hc =>
      split at hs
      next hz =>
        cases hs
        exact wf_delCont w cid c hwf hc hz
      next => cases hs
    next => cases hs
  | hBindMut hid cid => exact wf_bindNew w hid cid w2 hwf hs
  | hBindConst hid cid => exact wf_bindNew w hid cid w2 hwf hs
  | hBindMutBase hid cid => exact wf_bindNew w hid cid w2 hwf hs
  | hBindConstBase hid cid => exact wf_bindNew w hid cid w2 hwf hs
  | hCopy hid src => exact wf_bindFrom w hid src w2 hwf hs
  | hCopyConst hid src => exact hsafe.elim
  | hMove hid src => exact wf_bindFrom w hid src w2 hwf hs
  | hAssign hid rhs => exact hsafe.elim
  | hDtor hid => exact wf_unbind w hid w2 hwf hs

/-- Any run of count-safe operations from a well-formed world ends
well-formed. -/
theorem wf_run {V : Type} (mv : V -> V) (ops : List (Op V)) :
    forall (w w2 : World V), WF w -> (forall op, op ∈ ops -> countSafe op) ->
      run mv ops w = some w2 -> WF w2 := by
  induction ops with
  | nil =>
    intro w w2 hwf hsafe hs
    unfold run at hs
    cases hs
    exact hwf
  | cons op ops ih =>
    intro w w2 hwf hsafe hs
    unfold run at hs
    split at hs
    next wm hstep =>
      exact ih wm w2 (wf_step mv op w wm hwf (hsafe op (List.mem_cons_self op ops)) hstep)
        (fun o ho => hsafe o (List.mem_cons_of_mem _ ho)) hs
    next => cases hs

/-- Along any run that avoids the two implicit-member operations, a live
container's count does equal the number of live handles bound to it (the
design's intended invariant; `claimC2_bug` shows `hCopyConst` breaks it). -/
theorem count_invariant_of_safe_run {V : Type} (mv : V -> V) (ops : List (Op V))
    (w : World V) (cid : Nat) (c : RefCountable V)
    (hsafe : forall op, op ∈ ops -> countSafe op)
    (hrun : run mv ops (World.empty V) = some w)
    (hc : w.conts cid = some c)
    (hlt : boundCount w.hnds cid < sizeTMod) :
    c.counter = boundCount w.hnds cid := by
  have hwf := wf_run mv ops (World.empty V) w (wf_empty V) hsafe hrun
  rw [hwf.2.2.1 cid c hc]
  exact Nat.mod_eq_of_lt hlt

/-! ## The claims -/

theorem dtorIf_abort_iff (n : Nat) :
    (if n ≠ 0 then DtorOutcome.abort else .ok) = .abort ↔ n ≠ 0 := by
  by_cases hz : n = 0 <;> simp [hz]

theorem dtorIf_ok_iff (n : Nat) :
    (if n ≠ 0 then DtorOutcome.abort else .ok) = .ok ↔ n = 0 := by
  by_cases hz : n = 0 <;> simp [hz]

/-- A world with a single container (id 0, value 7, count 0) and no
handles. -/
def soloWorld : World Nat :=
  { conts := fun k => if k = 0 then some ⟨7, 0⟩ else none, hnds := [] }

/-- Claim C1: for every container (owning `RefCountable` or
reference-holding `RefCountableBase`, in either implementation),
destruction aborts the process if and only if the observer count is nonzero
at destruction time, and destruction with count 0 succeeds silently: in the
world semantics, a successful `dtorCont` only deletes that container's
entry, leaving every other container and all handles untouched. -/
theorem claimC1 {V : Type} (c : RefCountable V) (b : RefCountableBase V)
    (mv : V → V) (w : World V) (cid : Nat) (cc : RefCountable V)
    (hc : w.conts cid = some cc) :
    (RefCountable.dtor c = .abort ↔ c.counter ≠ 0) ∧
    (RefCountable.dtor c = .ok ↔ c.counter = 0) ∧
    (RefCountableBase.dtor b = .abort ↔ b.counter ≠ 0) ∧
    (RefCountableBase.dtor b = .ok ↔ b.counter = 0) ∧
    (PartB.dtor c = .abort ↔ c.counter ≠ 0) ∧
    (PartB.baseDtor b = .abort ↔ b.counter ≠ 0) ∧
    ((step mv (.dtorCont cid) w).isSome ↔ cc.counter = 0) ∧
    (cc.counter = 0 →
      step mv (.dtorCont cid) w = some { w with conts := setCont w.conts cid none }) := by
  refine ⟨dtorIf_abort_iff c.counter, dtorIf_ok_iff c.counter, dtorIf_abort_iff b.counter,
    dtorIf_ok_iff b.counter, dtorIf_abort_iff c.counter, dtorIf_abort_iff b.counter, ?_, ?_⟩
  · simp only [step, hc]
    by_cases hz : cc.counter = 0 <;> simp [hz]
  · intro hz
    simp only [step, hc, if_pos hz]

theorem claimC1_witness :
    step (fun v : Nat => v) (Op.dtorCont 0) soloWorld
      = some { soloWorld with conts := setCont soloWorld.conts 0 none } :=
  (claimC1 (⟨5, 1⟩ : RefCountable Nat) (⟨6, 0⟩ : RefCountableBase Nat)
    (fun v => v) soloWorld 0 ⟨7, 0⟩ (by rfl)).2.2.2.2.2.2.2 (by rfl)

/-- Claim C9: binding a handle to a container and immediately destroying
that handle restores the container cell exactly (value and count), for any
starting count representable in `size_t`, through both the mutable and the
const construction path, on both container variants. -/
theorem claimC9 {V : Type} (c : RefCountable V) (b : RefCountableBase V)
    (hc : c.counter < sizeTMod) (hb : b.counter < sizeTMod) :
    RefCounted.dtorTarget (RefCounted.ctorFromMutable c) = c ∧
    RefCounted.dtorTarget (RefCounted.ctorFromConst c) = c ∧
    RefCounted.dtorTargetBase (RefCounted.ctorFromMutableBase b) = b ∧
    RefCounted.dtorTargetBase (RefCounted.ctorFromConstBase b) = b := by
  have key : ∀ n : Nat, n < sizeTMod → fetchSub1 (fetchAdd1 n) = n := by
    intro n hn
    unfold fetchSub1 fetchAdd1 sizeTMod at *
    omega
  refine ⟨?_, ?_, ?_, ?_⟩
  · show (⟨c.value, fetchSub1 (fetchAdd1 c.counter)⟩ : RefCountable V) = c
    rw [key _ hc]
  · show (⟨c.value, fetchSub1 (fetchAdd1 c.counter)⟩ : RefCountable V) = c
    rw [key _ hc]
  · show (⟨b.value, fetchSub1 (fetchAdd1 b.counter)⟩ : RefCountableBase V) = b
    rw [key _ hb]
  · show (⟨b.value, fetchSub1 (fetchAdd1 b.counter)⟩ : RefCountableBase V) = b
    rw [key _ hb]

theorem claimC9_witness :
    RefCounted.dtorTarget (RefCounted.ctorFromMutable (⟨11, 3⟩ : RefCountable Nat)) = ⟨11, 3⟩ :=
  (claimC9 (⟨11, 3⟩ : RefCountable Nat) (⟨12, 0⟩ : RefCountableBase Nat)
    (by decide) (by decide)).1

/-- Claim C5 (the code contradicts it): in src/unnamed/part_000 the owning
container's copy-assignment runs `value = rhs.value();`, storing the result
of *invoking* the right-hand stored value instead of the value itself.
Here the wrapped type is modelled as `Nat` with `Nat.succ` standing for its
`operator()`: assigning from a container holding 5 stores 6, not 5, so the
assignment does not replace the stored value with the right-hand side's
value (the observer count is indeed left unchanged, and implementation A's
copy-assignment does store the right-hand value). -/
theorem claimC5_bug :
    (PartB.copyAssign Nat.succ ⟨0, 7⟩ ⟨5, 3⟩).value = 6 ∧
    ((⟨5, 3⟩ : RefCountable Nat)).value = 5 ∧
    (6 : Nat) ≠ 5 ∧
    (PartB.copyAssign Nat.succ ⟨0, 7⟩ ⟨5, 3⟩).counter = 7 ∧
    (RefCountable.copyAssign (⟨0, 7⟩ : RefCountable Nat) ⟨5, 3⟩).value = 5 :=
  ⟨rfl, rfl, by decide, rfl, rfl⟩

/-- Claim C7 is false as stated: the two implementations do not agree on
the owning container's copy-assignment.  With the wrapped type modelled as
`Nat` whose `operator()` is `Nat.succ`, assigning from a container holding
9 stores 9 in implementation A but 10 in implementation B. -/
theorem claimC7_counterexample :
    PartB.copyAssign Nat.succ ⟨1, 4⟩ ⟨9, 2⟩
      ≠ RefCountable.copyAssign (⟨1, 4⟩ : RefCountable Nat) ⟨9, 2⟩ := by
  decide

/-- Claim C7, amended: the two implementations produce the same stored
values, observer counts and destructor outcomes on every corresponding
operation *except* the owning container's copy-assignment, where
implementation B stores `call rhs.value` (the result of invoking the
right-hand stored value) instead of `rhs.value`. -/
theorem claimC7_amended {V : Type} (v : V) (c d : RefCountable V)
    (b : RefCountableBase V) (call : V → V) :
    PartB.init v = RefCountable.init v ∧
    PartB.copyCtor c = RefCountable.copyCtor c ∧
    PartB.dtor c = RefCountable.dtor c ∧
    PartB.moveAssign c d = RefCountable.moveAssign c d ∧
    PartB.assignVal c v = RefCountable.assignVal c v ∧
    PartB.assignValMove c v = RefCountable.assignValMove c v ∧
    PartB.baseInit v = RefCountableBase.init v ∧
    PartB.baseCopyCtor b = RefCountableBase.copyCtor b ∧
    PartB.baseMoveCtor b = RefCountableBase.moveCtor b ∧
    PartB.baseDtor b = RefCountableBase.dtor b ∧
    PartB.ctorFromMutable c = RefCounted.ctorFromMutable c ∧
    PartB.ctorFromConst c = RefCounted.ctorFromConst c ∧
    PartB.ctorFromMutableBase b = RefCounted.ctorFromMutableBase b ∧
    PartB.ctorFromConstBase b = RefCounted.ctorFromConstBase b ∧
    PartB.ctorCopy c = RefCounted.ctorCopy c ∧
    PartB.ctorCopyConst c = RefCounted.ctorCopyConst c ∧
    PartB.ctorMove c = RefCounted.ctorMove c ∧
    PartB.dtorTarget c = RefCounted.dtorTarget c ∧
    PartB.assignFromOther c d = RefCounted.assignFromOther c d ∧
    PartB.copyAssign call c d = ⟨call d.value, c.counter⟩ :=
  ⟨rfl, rfl, rfl, rfl, rfl, rfl, rfl, rfl, rfl, rfl, rfl, rfl, rfl, rfl, rfl, rfl, rfl,
    rfl, rfl, rfl⟩

/-- A world with one container (id 0, value 9, count 1) and one handle
(id 1) bound to it. -/
def moveDemoWorld : World Nat :=
  { conts := fun k => if k = 0 then some ⟨9, 1⟩ else none, hnds := [(1, ⟨0, 0⟩)] }

/-- Claim C3 is the design's intent but the code breaks it on one path:
the four container-binding constructors, copy-construction from a
non-const lvalue handle and move-construction from an rvalue handle all
run the written templates and increment the target's count by exactly 1
(shown at concrete cells), but copy-construction from a *const* same-type
handle runs the implicitly-declared copy constructor, which performs no
`fetch_add`: in `moveDemoWorld` (container 0 with count 1 and one bound
handle), const-copying handle 2 from handle 1 only records the new bound
handle — the container map is unchanged and the count stays 1 where the
claim requires 2. -/
theorem claimC3_bug :
    (RefCounted.ctorFromMutable (⟨3, 0⟩ : RefCountable Nat)).counter = 1 ∧
    (RefCounted.ctorFromConst (⟨3, 0⟩ : RefCountable Nat)).counter = 1 ∧
    (RefCounted.ctorFromMutableBase (⟨4, 0⟩ : RefCountableBase Nat)).counter = 1 ∧
    (RefCounted.ctorFromConstBase (⟨4, 0⟩ : RefCountableBase Nat)).counter = 1 ∧
    (RefCounted.ctorCopy (⟨3, 1⟩ : RefCountable Nat)).counter = 2 ∧
    (RefCounted.ctorMove (⟨3, 1⟩ : RefCountable Nat)).counter = 2 ∧
    step (fun v : Nat => v) (Op.hCopyConst 2 1) moveDemoWorld
      = some { moveDemoWorld with hnds := (2, ⟨0, 0⟩) :: moveDemoWorld.hnds } ∧
    (moveDemoWorld.conts 0).map RefCountable.counter = some 1 ∧
    boundCount ((2, ⟨0, 0⟩) :: moveDemoWorld.hnds) 0 = 2 ∧
    (1 : Nat) ≠ 2 :=
  ⟨rfl, rfl, rfl, rfl, rfl, rfl, rfl, rfl, rfl, by decide⟩

/-- Claim C4: destroying a handle decrements the observer count of its
currently bound target by exactly 1, exactly once, whatever the handle's
construction and reassignment history (the statement quantifies over any
world in which the handle is live): the target's count goes from `n` to
`n - 1`, its value is untouched, the handle's entry is removed, and no
other container or handle changes. -/
theorem claimC4 {V : Type} (w : World V) (hid : Nat) (h : HandleRef)
    (c : RefCountable V) (mv : V → V)
    (hg : getHnd w.hnds hid = some h)
    (hc : w.conts h.countTgt = some c)
    (h1 : 1 ≤ c.counter) (h2 : c.counter < sizeTMod) :
    step mv (.hDtor hid) w
      = some { conts := setCont w.conts h.countTgt (some ⟨c.value, c.counter - 1⟩),
               hnds := removeHnd w.hnds hid } := by
  simp only [step]
  unfold unbind
  rw [hg]
  dsimp only
  rw [hc]
  dsimp only
  rw [fetchSub1_eq_sub_one _ h1 h2]

theorem claimC4_witness :
    step (fun v : Nat => v) (Op.hDtor 1) moveDemoWorld
      = some { conts := setCont moveDemoWorld.conts 0 (some ⟨9, 0⟩),
               hnds := removeHnd moveDemoWorld.hnds 1 } :=
  claimC4 moveDemoWorld 1 ⟨0, 0⟩ ⟨9, 1⟩ (fun v => v) (by rfl) (by rfl) (by decide) (by decide)

/-- The worlds after copy-constructing container 1 from container 0, and
move-constructing container 2 from container 0, in `soloWorld`. -/
def copyDemoWorld : World Nat :=
  (step (fun v => v) (Op.copyCont 1 0) soloWorld).getD (World.empty Nat)

def moveContDemoWorld : World Nat :=
  (step (fun v => v) (Op.moveCont 2 0) soloWorld).getD (World.empty Nat)

/-- Claim C8: copy-construction and move-construction of a container
produce an independent container whose own observer count starts at 0
regardless of the source's count, copy/move only the value, and leave the
source container's observer count unchanged (for copy the source entry is
entirely untouched; for move only its value may change); no handle is
affected.  Both container variants are covered. -/
theorem claimC8 {V : Type} (src : RefCountable V) (bsrc : RefCountableBase V)
    (mv : V → V) (w w1 w2 : World V) (cid cid2 sid : Nat)
    (hcopy : step mv (.copyCont cid sid) w = some w1)
    (hmove : step mv (.moveCont cid2 sid) w = some w2) :
    (RefCountable.copyCtor src).counter = 0 ∧
    (RefCountable.copyCtor src).value = src.value ∧
    (RefCountable.moveCtor src).counter = 0 ∧
    (RefCountable.moveCtor src).value = src.value ∧
    (movedFrom mv src).counter = src.counter ∧
    (RefCountableBase.copyCtor bsrc).counter = 0 ∧
    (RefCountableBase.copyCtor bsrc).value = bsrc.value ∧
    (RefCountableBase.moveCtor bsrc).counter = 0 ∧
    (RefCountableBase.moveCtor bsrc).value = bsrc.value ∧
    w1.conts sid = w.conts sid ∧
    (w2.conts sid).map RefCountable.counter = (w.conts sid).map RefCountable.counter ∧
    w1.hnds = w.hnds ∧ w2.hnds = w.hnds := by
  refine ⟨rfl, rfl, rfl, rfl, rfl, rfl, rfl, rfl, rfl, ?_, ?_, ?_, ?_⟩
  · simp only [step] at hcopy
    split at hcopy
    next cc hnone hsome =>
      cases hcopy
      have hne : cid ≠ sid := by
        intro he
        rw [he, hsome] at hnone
        cases hnone
      dsimp only
      rw [setCont_ne _ _ _ _ (fun hx : sid = cid => hne hx.symm)]
    next => cases hcopy
  · simp only [step] at hmove
    split at hmove
    next cc hnone hsome =>
      cases hmove
      have hne : cid2 ≠ sid := by
        intro he
        rw [he, hsome] at hnone
        cases hnone
      dsimp only
      rw [setCont_ne _ _ _ _ (fun hx : sid = cid2 => hne hx.symm), setCont_self, hsome]
      rfl
    next => cases hmove
  · simp only [step] at hcopy
    split at hcopy
    next cc hnone hsome =>
      cases hcopy
      rfl
    next => cases hcopy
  · simp only [step] at hmove
    split at hmove
    next cc hnone hsome =>
      cases hmove
      rfl
    next => cases hmove

theorem claimC8_witness :
    (RefCountable.copyCtor (⟨7, 5⟩ : RefCountable Nat)).counter = 0 ∧
    copyDemoWorld.conts 0 = soloWorld.conts 0 ∧
    (moveContDemoWorld.conts 0).map RefCountable.counter
      = (soloWorld.conts 0).map RefCountable.counter := by
  have h := claimC8 (⟨7, 5⟩ : RefCountable Nat) (⟨8, 6⟩ : RefCountableBase Nat)
    (fun v => v) soloWorld copyDemoWorld moveContDemoWorld 1 2 0 (by rfl) (by rfl)
  exact ⟨h.1, h.2.2.2.2.2.2.2.2.2.1, h.2.2.2.2.2.2.2.2.2.2.1⟩

/-- A world with two containers (ids 0 and 1, counts 1 each) and one handle
bound to each. -/
def pairWorld : World Nat :=
  { conts := fun k => if k = 0 then some ⟨10, 1⟩ else if k = 1 then some ⟨20, 1⟩ else none,
    hnds := [(5, ⟨0, 0⟩), (6, ⟨1, 1⟩)] }

/-- Claim C6 is the design's intent but the code breaks it: `h1 = h2`
selects the implicitly-declared copy assignment operator (the only
candidate the program can execute — the written templated `operator=` is
never selected), which rebinds both `reference_wrapper` members and
performs no counter operation.  In `pairWorld` (handle 5 bound to
container 0 with count 1, handle 6 bound to container 1 with count 1),
assigning handle 5 from handle 6 leaves the entire container map unchanged
— count(0) stays 1 instead of dropping to 0 and count(1) stays 1 instead
of rising to 2 — while handle 5 is rebound to container 1. -/
theorem claimC6_bug :
    step (fun v : Nat => v) (Op.hAssign 5 6) pairWorld
      = some { pairWorld with hnds := setHnd pairWorld.hnds 5 ⟨1, 1⟩ } ∧
    ((step (fun v : Nat => v) (Op.hAssign 5 6) pairWorld).bind (fun w2 => w2.conts 0))
      = some ⟨10, 1⟩ ∧
    ((step (fun v : Nat => v) (Op.hAssign 5 6) pairWorld).bind (fun w2 => w2.conts 1))
      = some ⟨20, 1⟩ ∧
    getHnd (setHnd pairWorld.hnds 5 ⟨1, 1⟩) 5 = some ⟨1, 1⟩ ∧
    (1 : Nat) ≠ 0 ∧ (1 : Nat) ≠ 2 :=
  ⟨rfl, rfl, rfl, rfl, by decide, by decide⟩

/-- A world with one container (id 0, value 50, count 2) and two distinct
handles (ids 3 and 4) both bound to it. -/
def sharedWorld : World Nat :=
  { conts := fun k => if k = 0 then some ⟨50, 2⟩ else none,
    hnds := [(3, ⟨0, 0⟩), (4, ⟨0, 0⟩)] }

/-- Claim C10: copy-assigning one handle from a different handle bound to
the same container C leaves count(C) — indeed the whole container map,
value included — unchanged, and the assigned handle remains bound to C
through both of its references.  In the program this holds not because a
decrement and an increment cancel on the same counter (that is the
written-but-never-selected templated `operator=`): `h1 = h2` executes the
implicitly-declared copy assignment, which rebinds the two
`reference_wrapper` members and performs no counter operation at all, so
count(C) is untouched and, the right-hand handle being bound to C, the
assigned handle ends bound to C as well. -/
theorem claimC10 {V : Type} (w : World V) (hid rhs : Nat) (h hr : HandleRef)
    (c : RefCountable V) (mv : V → V)
    (hg : getHnd w.hnds hid = some h)
    (hgr : getHnd w.hnds rhs = some hr)
    (_hne : hid ≠ rhs)
    (hsame : hr.countTgt = h.countTgt)
    (hvt : hr.valueTgt = hr.countTgt)
    (hc : w.conts h.countTgt = some c) :
    step mv (.hAssign hid rhs) w
      = some { w with hnds := setHnd w.hnds hid ⟨hr.valueTgt, hr.countTgt⟩ } ∧
    ((step mv (.hAssign hid rhs) w).bind (fun w2 => w2.conts h.countTgt)) = some c ∧
    getHnd (setHnd w.hnds hid ⟨hr.valueTgt, hr.countTgt⟩) hid
      = some ⟨h.countTgt, h.countTgt⟩ := by
  have hstep : step mv (.hAssign hid rhs) w
      = some { w with hnds := setHnd w.hnds hid ⟨hr.valueTgt, hr.countTgt⟩ } := by
    simp only [step]
    unfold implicitAssign
    rw [hg, hgr]
  refine ⟨hstep, ?_, ?_⟩
  · rw [hstep]
    exact hc
  · rw [hvt, hsame]
    exact getHnd_setHnd_self _ _ _ _ hg

theorem claimC10_witness :
    step (fun v : Nat => v) (Op.hAssign 3 4) sharedWorld
      = some { sharedWorld with hnds := setHnd sharedWorld.hnds 3 ⟨0, 0⟩ } ∧
    ((step (fun v : Nat => v) (Op.hAssign 3 4) sharedWorld).bind (fun w2 => w2.conts 0))
      = some ⟨50, 2⟩ ∧
    getHnd (setHnd sharedWorld.hnds 3 ⟨0, 0⟩) 3 = some ⟨0, 0⟩ :=
  claimC10 sharedWorld 3 4 ⟨0, 0⟩ ⟨0, 0⟩ ⟨50, 2⟩ (fun v => v)
    (by rfl) (by rfl) (by decide) (by rfl) (by rfl) (by rfl)
